import Mathlib

/-!
Verification of the `nads` Maybe/Outcome library (`src/maybe/index.ts` and the
Outcome module built on it).

Modelling conventions (shallow embedding):

* A TypeScript runtime value of declared type `T` may additionally be `null` or
  `undefined`; we model such a slot as `JsVal α` with explicit `null` / `undef`
  constructors, so the library's null-normalization and `??` / truthiness logic
  is expressible.
* The source represents `Maybe` / `Outcome` as frozen records
  `{[kindSymbol]: 0|1, [valueSymbol]: payload}` whose hidden symbol keys make
  them closed tagged unions (spec section 9 says so explicitly).  Every read of
  the payload in the source is guarded by the kind check (`isSome` /
  `isSuccess`), and the `none` constant stores `undefined` in its payload slot,
  which no combinator ever reads.  We therefore embed each record type as the
  corresponding Lean sum type: `Maybe.none` is the record with kind 0,
  `Maybe.some v` the record with kind 1 and payload `v`; likewise for
  `Outcome`.  The source casts `maybe as Maybe<TNext>` / `outcome as
  Outcome<TNext>` on the absent/failed path return the input object unchanged;
  in the embedding this is the corresponding payload-free / failure variant at
  the result type.
* `match` is a Lean keyword, so the two `match` functions are named
  `matchMaybe` and `matchOutcome`.
* The repository's source file contains two concatenated revisions of the
  Maybe module.  The second revision (the one the Outcome module imports, and
  the one the spec describes) is embedded in namespace `MaybeMod`; the first
  revision, whose `some` does not normalize, is embedded in namespace
  `MaybeV1` (only the functions in which the revisions can differ are
  duplicated there; the rest is textually identical between the two copies).
-/

/-- A runtime value in a slot of declared type `α`: either a proper value,
or the JavaScript `null` / `undefined` sentinels. -/
inductive JsVal (α : Type) where
  | undef : JsVal α
  | null : JsVal α
  | val (a : α) : JsVal α
deriving DecidableEq, Repr

namespace JsVal

/-- JavaScript truthiness, restricted to the uses in this library: `undefined`
and `null` are falsy; the only `val` payloads tested for truthiness by the
source are `Error` instances, which are objects and hence always truthy. -/
def truthy : JsVal α → Bool
  | .undef => false
  | .null => false
  | .val _ => true

/-- The nullish-coalescing operator `x ?? d`. -/
def orElse : JsVal α → α → α
  | .undef, d => d
  | .null, d => d
  | .val a, _ => a

/-- The source's normalization test `undefined !== v && null !== v`. -/
def nonNullish : JsVal α → Bool
  | .undef => false
  | .null => false
  | .val _ => true

end JsVal

/-- Embedding of the record type
`Maybe<T> = {[kindSymbol]: MaybeKind, [valueSymbol]: T | undefined}`:
`none` is the record with kind `maybeKind.none` (payload `undefined`, never
read), `some v` the record with kind `maybeKind.some` and payload `v`. -/
inductive Maybe (α : Type) where
  | none : Maybe α
  | some (value : JsVal α) : Maybe α
deriving DecidableEq, Repr

/-- The `onNone` argument of Maybe's `match`: either a zero-argument function
or a plain value, discriminated by the source via `typeof onNone ===
'function'`. -/
inductive OnNone (β : Type) where
  | fn (f : Unit → β) : OnNone β
  | value (b : β) : OnNone β

namespace MaybeV1

/-- First revision, lines 53-58: `some(value)` wraps unconditionally:
`return {[kindSymbol]: maybeKind.some, [valueSymbol]: value}`. -/
def some (value : JsVal α) : Maybe α :=
  Maybe.some value

/-- First revision, lines 78-80: `isSome(maybe)` is
`maybe[kindSymbol] === maybeKind.some`. -/
def isSome : Maybe α → Bool
  | .some _ => true
  | .none => false

/-- First revision, lines 82-86: `resolveOnNone(onNone)` calls `onNone` when it
is a function and returns it unchanged otherwise. -/
def resolveOnNone : OnNone β → β
  | .fn f => f ()
  | .value b => b

/-- First revision, lines 43-51: `match(maybe, onSome, onNone)`. -/
def matchMaybe (m : Maybe α) (onSome : JsVal α → β) (onNone : OnNone β) : β :=
  match m with
  | .some v => onSome v
  | .none => resolveOnNone onNone

end MaybeV1

namespace MaybeMod

/-- Second revision, lines 186-189: the `none` constant
`{[kindSymbol]: maybeKind.none, [valueSymbol]: undefined}`. -/
def none : Maybe α :=
  Maybe.none

/-- Second revision, lines 176-178: `isSome(maybeInstance)` is
`maybeInstance[kindSymbol] === maybeKind.some`. -/
def isSome : Maybe α → Bool
  | .some _ => true
  | .none => false

/-- Second revision, lines 144-151: `maybe(maybeValue)` yields a Some record
when `undefined !== maybeValue && null !== maybeValue`, else the `none`
constant. -/
def maybe (maybeValue : JsVal α) : Maybe α :=
  if maybeValue.nonNullish then Maybe.some maybeValue else none

/-- Second revision, lines 154-156: `some(value)` is `maybe(value)`. -/
def some (value : JsVal α) : Maybe α :=
  maybe value

/-- Second revision, lines 116-123: `flatMap(maybeInstance, mapper)` applies
`mapper` to the payload when `isSome`, else returns the input unchanged
(`maybeInstance as Maybe<TNext>`). -/
def flatMap (m : Maybe α) (mapper : JsVal α → Maybe β) : Maybe β :=
  match m with
  | .some v => mapper v
  | .none => Maybe.none

/-- Second revision, lines 125-132: `map(maybeInstance, mapper)` rebuilds
through `some` (hence through the normalizing `maybe`) when `isSome`, else
returns the input unchanged. -/
def map (m : Maybe α) (mapper : JsVal α → JsVal β) : Maybe β :=
  match m with
  | .some v => some (mapper v)
  | .none => Maybe.none

/-- Second revision, lines 180-184: `resolveOnNone(onNone)` calls `onNone` when
`'function' === typeof onNone`, else returns it as-is. -/
def resolveOnNone : OnNone β → β
  | .fn f => f ()
  | .value b => b

/-- Second revision, lines 134-142: `match(maybeInstance, onSome, onNone)`. -/
def matchMaybe (m : Maybe α) (onSome : JsVal α → β) (onNone : OnNone β) : β :=
  match m with
  | .some v => onSome v
  | .none => resolveOnNone onNone

/-- Second revision, lines 158-174: `appendIfSome(array, maybeInstance)` is
`match(maybeInstance, x => [...array, x], array)`. -/
def appendIfSome (array : List (JsVal α)) (m : Maybe α) : List (JsVal α) :=
  matchMaybe m (fun x => array ++ [x]) (OnNone.value array)

/-- Second revision, lines 107-114: `coalesce(...maybes)` is
`maybes.reduce(appendIfSome, [])`, a left fold with the empty array as seed. -/
def coalesce (maybes : List (Maybe α)) : List (JsVal α) :=
  maybes.foldl appendIfSome []

end MaybeMod

/-- Embedding of `IFailure`: the failure record with `code`, `detail` and the
optionally captured underlying cause `maybeError : Maybe<Error>`.  `ε` stands
for the host `Error` type. -/
structure IFailure (ε : Type) where
  code : String
  detail : String
  maybeError : Maybe ε
deriving DecidableEq, Repr

/-- Embedding of the record type
`Outcome<T> = {[kindSymbol]: OutcomeKind, [valueSymbol]: IFailure | T}`:
`failure f` is the record with kind `outcomeKind.failure` and payload `f`,
`success v` the record with kind `outcomeKind.success` and payload `v`.  Every
payload read in the source is guarded by `isSuccess`, so the untagged union
payload is always the variant matching the kind. -/
inductive Outcome (ε α : Type) where
  | failure (f : IFailure ε) : Outcome ε α
  | success (v : JsVal α) : Outcome ε α
deriving DecidableEq, Repr

/-- The first argument of the `failure` constructor,
`detailOrFailure : IFailure | string`, which at runtime may also be
`undefined` (zero-argument call) or `null`.  The source discriminates by
`undefined === d || null === d || 'string' === typeof d`. -/
inductive FailureArg (ε : Type) where
  | undef : FailureArg ε
  | null : FailureArg ε
  | str (s : String) : FailureArg ε
  | record (f : IFailure ε) : FailureArg ε
deriving Repr

namespace OutcomeMod

/-- Lines 339-341: `isSuccess(outcome)` is
`outcome[kindSymbol] === outcomeKind.success`. -/
def isSuccess : Outcome ε α → Bool
  | .success _ => true
  | .failure _ => false

/-- Lines 329-337: `createFailure(detail, code, error)` builds the plain
record `{code, detail, maybeError: error}`. -/
def createFailure (detail : String) (code : String) (error : Maybe ε) :
    IFailure ε :=
  { code := code, detail := detail, maybeError := error }

/-- Lines 225-247: the `failure` constructor.  `code` and `error` are the
optional second and third parameters (`undefined` when omitted).  When
`detailOrFailure` is a string or nullish, the record is built by
`createFailure(detailOrFailure ?? '', code ?? '', error ? some(error) : none)`;
otherwise the single non-string, non-nullish argument is used as the
pre-built record.  The result is wrapped with kind `outcomeKind.failure`. -/
def failure (detailOrFailure : FailureArg ε) (code : JsVal String)
    (error : JsVal ε) : Outcome ε α :=
  match detailOrFailure with
  | .record f => Outcome.failure f
  | .undef =>
      Outcome.failure (createFailure ((JsVal.undef : JsVal String).orElse "")
        (code.orElse "")
        (if error.truthy then MaybeMod.some error else MaybeMod.none))
  | .null =>
      Outcome.failure (createFailure ((JsVal.null : JsVal String).orElse "")
        (code.orElse "")
        (if error.truthy then MaybeMod.some error else MaybeMod.none))
  | .str s =>
      Outcome.failure (createFailure ((JsVal.val s).orElse "")
        (code.orElse "")
        (if error.truthy then MaybeMod.some error else MaybeMod.none))

/-- Lines 322-327: `success(successValue)` wraps its argument unconditionally
with kind `outcomeKind.success`; no null-normalization. -/
def success (successValue : JsVal α) : Outcome ε α :=
  Outcome.success successValue

/-- Lines 249-256: `flatMap(outcome, mapper)` applies `mapper` to the payload
when `isSuccess`, else returns the input unchanged
(`outcome as Outcome<TNext>`). -/
def flatMap (outcome : Outcome ε α) (mapper : JsVal α → Outcome ε β) :
    Outcome ε β :=
  match outcome with
  | .success v => mapper v
  | .failure f => Outcome.failure f

/-- Lines 258-265: `map(outcome, mapper)` rebuilds through `success` when
`isSuccess`, else returns the input unchanged. -/
def map (outcome : Outcome ε α) (mapper : JsVal α → JsVal β) : Outcome ε β :=
  match outcome with
  | .success v => success (mapper v)
  | .failure f => Outcome.failure f

/-- Lines 267-275: `match(outcome, onSuccess, onFailure)`; both handlers are
functions, exactly one is invoked. -/
def matchOutcome (outcome : Outcome ε α) (onSuccess : JsVal α → β)
    (onFailure : IFailure ε → β) : β :=
  match outcome with
  | .success v => onSuccess v
  | .failure f => onFailure f

/-- Lines 312-320: `pipe(outcome, ...steps)` is
`steps.reduce(flatMap, outcome)`, a left fold over `flatMap` with the initial
outcome as seed.  The untyped implementation threads a single payload type. -/
def pipe (outcome : Outcome ε α) (steps : List (JsVal α → Outcome ε α)) :
    Outcome ε α :=
  steps.foldl flatMap outcome

end OutcomeMod

/-- Spec-side description of `coalesce` (section 4.1): the list of carried
values of exactly the `Some` entries, in input order, with `None` entries
dropped. -/
def someValues : List (Maybe α) → List (JsVal α)
  | [] => []
  | Maybe.none :: rest => someValues rest
  | Maybe.some v :: rest => v :: someValues rest

/-- A left fold of `flatMap` started from (or having reached) a `Failure`
stays that same `Failure`, whatever the remaining steps are. -/
theorem foldl_flatMap_failure (steps : List (JsVal α → Outcome ε α))
    (f : IFailure ε) :
    steps.foldl OutcomeMod.flatMap (Outcome.failure f) = Outcome.failure f := by
  induction steps with
  | nil => rfl
  | cons s rest ih => simpa [OutcomeMod.flatMap] using ih

/-- Accumulator lemma for `coalesce`: folding `appendIfSome` from any seed
appends exactly the carried values of the `Some` entries, in order. -/
theorem foldl_appendIfSome (ms : List (Maybe α)) (acc : List (JsVal α)) :
    ms.foldl MaybeMod.appendIfSome acc = acc ++ someValues ms := by
  induction ms generalizing acc with
  | nil => simp [someValues]
  | cons m rest ih =>
    cases m with
    | none =>
      simpa [someValues, MaybeMod.appendIfSome, MaybeMod.matchMaybe,
        MaybeMod.resolveOnNone] using ih acc
    | some v =>
      simp [someValues, MaybeMod.appendIfSome, MaybeMod.matchMaybe, ih]

/-- C1: for every value `v`, `some(v)` returns a `Some` record carrying `v`
unless `v` is null or undefined, in which case `some(v)` returns the `None`
variant; in particular `some(null)` and `some(undefined)` are variant-equal to
`none`, and both are eliminated through the `None` branch of `match`. -/
theorem some_normalizes_nullish {α β : Type} (v : JsVal α)
    (h1 : v ≠ JsVal.null) (h2 : v ≠ JsVal.undef) :
    MaybeMod.some v = Maybe.some v ∧
    MaybeMod.some (JsVal.null : JsVal α) = MaybeMod.none ∧
    MaybeMod.some (JsVal.undef : JsVal α) = MaybeMod.none ∧
    (∀ (onSome : JsVal α → β) (g : Unit → β),
      MaybeMod.matchMaybe (MaybeMod.some (JsVal.null : JsVal α)) onSome
          (OnNone.fn g) = g () ∧
      MaybeMod.matchMaybe (MaybeMod.some (JsVal.undef : JsVal α)) onSome
          (OnNone.fn g) = g ()) := by
  refine ⟨?_, rfl, rfl, fun onSome g => ⟨rfl, rfl⟩⟩
  cases v with
  | undef => exact absurd rfl h2
  | null => exact absurd rfl h1
  | val a => rfl

/-- C1 witness: the normalization behavior evaluated at `v = 5`, with both
nullish inputs collapsing to `none` and eliminating through the `None`
branch. -/
theorem some_normalizes_nullish_witness :
    MaybeMod.some (JsVal.val (5 : Int)) = Maybe.some (JsVal.val 5) ∧
    MaybeMod.some (JsVal.null : JsVal Int) = MaybeMod.none ∧
    MaybeMod.some (JsVal.undef : JsVal Int) = MaybeMod.none ∧
    MaybeMod.matchMaybe (MaybeMod.some (JsVal.null : JsVal Int))
      (fun _ => (0 : Int)) (OnNone.fn fun _ => 9) = 9 := by
  obtain ⟨a, b, c, d⟩ := some_normalizes_nullish (β := Int)
    (JsVal.val (5 : Int)) (by decide) (by decide)
  exact ⟨a, b, c, (d (fun _ => 0) (fun _ => 9)).1⟩

/-- C2: `pipe(o, s1, ..., sn)` is the left fold of `flatMap` over the steps
with `o` as seed; consequently once the fold over a prefix has produced a
`Failure`, that `Failure` is the final result for every choice of the later
step functions. -/
theorem pipe_foldl_short_circuits {ε α : Type} (o : Outcome ε α)
    (steps pre post : List (JsVal α → Outcome ε α)) (f : IFailure ε)
    (h : OutcomeMod.pipe o pre = Outcome.failure f) :
    OutcomeMod.pipe o steps = steps.foldl OutcomeMod.flatMap o ∧
    OutcomeMod.pipe o (pre ++ post) = Outcome.failure f := by
  refine ⟨rfl, ?_⟩
  unfold OutcomeMod.pipe at h ⊢
  rw [List.foldl_append, h]
  exact foldl_flatMap_failure post f

/-- C2 witness: `pipe(success(1), const failure("d","c"), n => success(n))`
short-circuits at the failing first step; the later step function never
affects the result. -/
theorem pipe_foldl_short_circuits_witness :
    OutcomeMod.pipe (OutcomeMod.success (JsVal.val (1 : Int)) : Outcome Unit Int)
      [] = List.foldl OutcomeMod.flatMap (OutcomeMod.success (JsVal.val 1)) [] ∧
    OutcomeMod.pipe (OutcomeMod.success (JsVal.val (1 : Int)) : Outcome Unit Int)
      ([fun _ => OutcomeMod.failure (FailureArg.str "d") (JsVal.val "c")
          JsVal.undef] ++ [fun n => OutcomeMod.success n]) =
      Outcome.failure { code := "c", detail := "d", maybeError := Maybe.none } :=
  pipe_foldl_short_circuits
    (OutcomeMod.success (JsVal.val (1 : Int)))
    []
    [fun _ => OutcomeMod.failure (FailureArg.str "d") (JsVal.val "c") JsVal.undef]
    [fun n => OutcomeMod.success n]
    { code := "c", detail := "d", maybeError := Maybe.none }
    rfl

/-- C3: `failure("d","c")` yields detail `"d"`, code `"c"`, cause `None`;
`failure("d","c",err)` yields cause `Some(err)`; `failure()` yields detail
`""`, code `""`, cause `None`; a single non-string, non-nullish argument is
stored directly as the pre-built failure record. -/
theorem failure_dispatch {ε α : Type} (d c : String) (e : ε) (f : IFailure ε) :
    (OutcomeMod.failure (FailureArg.str d) (JsVal.val c) JsVal.undef :
        Outcome ε α) =
      Outcome.failure { code := c, detail := d, maybeError := Maybe.none } ∧
    (OutcomeMod.failure (FailureArg.str d) (JsVal.val c) (JsVal.val e) :
        Outcome ε α) =
      Outcome.failure
        { code := c, detail := d, maybeError := Maybe.some (JsVal.val e) } ∧
    (OutcomeMod.failure FailureArg.undef JsVal.undef JsVal.undef :
        Outcome ε α) =
      Outcome.failure { code := "", detail := "", maybeError := Maybe.none } ∧
    (OutcomeMod.failure (FailureArg.record f) JsVal.undef JsVal.undef :
        Outcome ε α) =
      Outcome.failure f :=
  ⟨rfl, rfl, rfl, rfl⟩

/-- C4: Maybe's `flatMap` is associative: `flatMap(flatMap(m, f), g)` equals
`flatMap(m, x => flatMap(f(x), g))` for every `m`, `f`, `g`. -/
theorem flatMap_assoc {α β γ : Type} (m : Maybe α) (f : JsVal α → Maybe β)
    (g : JsVal β → Maybe γ) :
    MaybeMod.flatMap (MaybeMod.flatMap m f) g =
      MaybeMod.flatMap m (fun x => MaybeMod.flatMap (f x) g) := by
  cases m <;> rfl

/-- C5: `coalesce` returns the carried values of exactly the `Some` entries in
input order, dropping `None` entries, for any number (including zero) of
arguments; in particular `coalesce(some(0), none, some(3)) = [0, 3]` and
`coalesce()` is the empty list. -/
theorem coalesce_keeps_some_values {α : Type} (ms : List (Maybe α)) :
    MaybeMod.coalesce ms = someValues ms ∧
    MaybeMod.coalesce [MaybeMod.some (JsVal.val (0 : Int)), MaybeMod.none,
      MaybeMod.some (JsVal.val 3)] = [JsVal.val 0, JsVal.val 3] ∧
    MaybeMod.coalesce ([] : List (Maybe Int)) = [] := by
  refine ⟨?_, rfl, rfl⟩
  simpa using foldl_appendIfSome ms []

/-- C6: applied to a `Failure` (Outcome) or to `None` (Maybe), `map` and
`flatMap` return that same failure/none value unchanged; the result does not
depend on the supplied transformer, so the transformer is never invoked. -/
theorem failure_none_inert {ε α β : Type} (fv : IFailure ε)
    (f g : JsVal α → JsVal β) (p q : JsVal α → Outcome ε β)
    (f2 : JsVal α → JsVal β) (p2 : JsVal α → Maybe β) :
    OutcomeMod.map (Outcome.failure fv : Outcome ε α) f = Outcome.failure fv ∧
    OutcomeMod.map (Outcome.failure fv : Outcome ε α) g = Outcome.failure fv ∧
    OutcomeMod.flatMap (Outcome.failure fv : Outcome ε α) p =
      Outcome.failure fv ∧
    OutcomeMod.flatMap (Outcome.failure fv : Outcome ε α) q =
      Outcome.failure fv ∧
    MaybeMod.map (MaybeMod.none : Maybe α) f2 = MaybeMod.none ∧
    MaybeMod.flatMap (MaybeMod.none : Maybe α) p2 = MaybeMod.none :=
  ⟨rfl, rfl, rfl, rfl, rfl, rfl⟩

/-- C7: Maybe's `match` executes exactly one branch and round-trips
construction: for non-nullish `x`, `match(some(x), v => v, () => SENTINEL)`
is `x`; `match(none, v => v, () => SENTINEL)` is `SENTINEL`; `onNone` may be a
plain value, returned as-is on the `None` path; and on the `Some` path the
result is `onSome x`, independent of the `onNone` thunk. -/
theorem match_round_trips {α β : Type} (x sentinel : JsVal α)
    (h1 : x ≠ JsVal.null) (h2 : x ≠ JsVal.undef)
    (onSome : JsVal α → β) (g : Unit → β) :
    MaybeMod.matchMaybe (MaybeMod.some x) (fun v => v)
      (OnNone.fn fun _ => sentinel) = x ∧
    MaybeMod.matchMaybe (MaybeMod.none : Maybe α) (fun v => v)
      (OnNone.fn fun _ => sentinel) = sentinel ∧
    MaybeMod.matchMaybe (MaybeMod.none : Maybe α) (fun v => v)
      (OnNone.value sentinel) = sentinel ∧
    MaybeMod.matchMaybe (MaybeMod.some x) onSome (OnNone.fn g) = onSome x := by
  have hx : MaybeMod.some x = Maybe.some x := by
    cases x with
    | undef => exact absurd rfl h2
    | null => exact absurd rfl h1
    | val a => rfl
  exact ⟨by rw [hx]; rfl, rfl, rfl, by rw [hx]; rfl⟩

/-- C7 witness: the round-trip evaluated at `x = 2` with sentinel `9`. -/
theorem match_round_trips_witness :
    MaybeMod.matchMaybe (MaybeMod.some (JsVal.val (2 : Int))) (fun v => v)
      (OnNone.fn fun _ => JsVal.val 9) = JsVal.val 2 ∧
    MaybeMod.matchMaybe (MaybeMod.none : Maybe Int) (fun v => v)
      (OnNone.fn fun _ => JsVal.val 9) = JsVal.val 9 ∧
    MaybeMod.matchMaybe (MaybeMod.none : Maybe Int) (fun v => v)
      (OnNone.value (JsVal.val 9)) = JsVal.val 9 ∧
    MaybeMod.matchMaybe (MaybeMod.some (JsVal.val (2 : Int)))
      (fun v => v) (OnNone.fn fun _ => JsVal.val 9) = JsVal.val 2 :=
  match_round_trips (JsVal.val 2) (JsVal.val 9) (by decide) (by decide)
    (fun v => v) (fun _ => JsVal.val 9)

/-- C8: `success` never re-interprets its argument: for every value `v`,
including null and undefined, `success(v)` is a `Success` variant carrying
exactly `v`, and `match(success(v), s => s, onFailure)` equals `v`. -/
theorem success_no_normalization {ε α : Type} (v : JsVal α)
    (onFailure : IFailure ε → JsVal α) :
    (OutcomeMod.success v : Outcome ε α) = Outcome.success v ∧
    OutcomeMod.matchOutcome (OutcomeMod.success v : Outcome ε α)
      (fun s => s) onFailure = v :=
  ⟨rfl, rfl⟩

/-- C9: Maybe's `map` rebuilds through the normalizing constructor, so when
the mapper returns null or undefined, `map(some(x), f)` is variant-equal to
`none`. -/
theorem map_renormalizes {α β : Type} (x : JsVal α) (f : JsVal α → JsVal β)
    (h : f x = JsVal.null ∨ f x = JsVal.undef) :
    MaybeMod.map (MaybeMod.some x) f = MaybeMod.none := by
  cases x with
  | undef => rfl
  | null => rfl
  | val a =>
    show MaybeMod.maybe (f (JsVal.val a)) = MaybeMod.none
    rcases h with h | h <;> rw [h] <;> rfl

/-- C9 witness: mapping `1` to `null` yields `none`. -/
theorem map_renormalizes_witness :
    MaybeMod.map (MaybeMod.some (JsVal.val (1 : Int)))
      (fun _ => (JsVal.null : JsVal Int)) = MaybeMod.none :=
  map_renormalizes (JsVal.val 1) (fun _ => JsVal.null) (Or.inl rfl)

/-- C10 counterexample: at `v = null` the first copy's `some` yields a `Some`
record carrying `null` while the second copy's `some` yields `none`; the two
results are not variant-equal and eliminate through different branches of
`match`. -/
theorem someV1_someV2_not_equivalent :
    MaybeV1.some (JsVal.null : JsVal Int) ≠
      MaybeMod.some (JsVal.null : JsVal Int) ∧
    MaybeV1.matchMaybe (MaybeV1.some (JsVal.null : JsVal Int))
        (fun _ => (0 : Int)) (OnNone.value 1) ≠
      MaybeMod.matchMaybe (MaybeMod.some (JsVal.null : JsVal Int))
        (fun _ => (0 : Int)) (OnNone.value 1) := by
  exact ⟨by decide, by decide⟩

/-- C10 amended: the two copies of `some` agree, and eliminate identically
under `match`, exactly on the non-nullish inputs; at null/undefined the first
copy yields a `Some` carrying the nullish value while the second yields the
`None` variant. -/
theorem someV1_someV2_agree_nonNullish {α β : Type} (v : JsVal α)
    (h1 : v ≠ JsVal.null) (h2 : v ≠ JsVal.undef) :
    MaybeV1.some v = MaybeMod.some v ∧
    (∀ (onSome : JsVal α → β) (onNone : OnNone β),
      MaybeV1.matchMaybe (MaybeV1.some v) onSome onNone =
        MaybeMod.matchMaybe (MaybeMod.some v) onSome onNone) ∧
    MaybeV1.some (JsVal.null : JsVal α) = Maybe.some JsVal.null ∧
    MaybeMod.some (JsVal.null : JsVal α) = Maybe.none ∧
    MaybeV1.some (JsVal.undef : JsVal α) = Maybe.some JsVal.undef ∧
    MaybeMod.some (JsVal.undef : JsVal α) = Maybe.none := by
  cases v with
  | undef => exact absurd rfl h2
  | null => exact absurd rfl h1
  | val a => exact ⟨rfl, fun onSome onNone => rfl, rfl, rfl, rfl, rfl⟩

/-- C10 amended witness: agreement evaluated at `v = 7`. -/
theorem someV1_someV2_agree_nonNullish_witness :
    MaybeV1.some (JsVal.val (7 : Int)) = MaybeMod.some (JsVal.val 7) ∧
    MaybeV1.matchMaybe (MaybeV1.some (JsVal.val (7 : Int)))
        (fun v => v) (OnNone.value (JsVal.val 0)) =
      MaybeMod.matchMaybe (MaybeMod.some (JsVal.val (7 : Int)))
        (fun v => v) (OnNone.value (JsVal.val 0)) ∧
    MaybeV1.some (JsVal.null : JsVal Int) = Maybe.some JsVal.null ∧
    MaybeMod.some (JsVal.null : JsVal Int) = Maybe.none := by
  obtain ⟨a, b, c, d, _, _⟩ := someV1_someV2_agree_nonNullish
    (β := JsVal Int) (JsVal.val (7 : Int)) (by decide) (by decide)
  exact ⟨a, b (fun v => v) (OnNone.value (JsVal.val 0)), c, d⟩
